import Mathlib

/-!
# Fusion frontend of `ov_msckf/src/slam2.cpp`

A shallow embedding of the `slam2` plugin: its constructor and the per-sample
callback `feed_imu_cam`, followed by the properties of the frontend.

Modelling conventions.

* C++ `double` and `float` values are modelled by `FP`: a finite value is the
  exact rational it denotes, next to the two infinities and NaN. The sign of
  zero is not represented (`-0.0` and `0.0` compare equal in C++ and no
  operation of the frontend tells them apart). Conversions and the one
  division of the frontend round to nearest, ties to even.
* `assert` is modelled as active (a build without `NDEBUG`): a failing
  assertion ends the tick in a fault, as `abort()` does.
* The estimator (`VioManager`), the camera queue and the two writers are
  collaborators outside the file. The estimator is a record of operations over
  an arbitrary state type; the queue is a list; each `put` on a writer and each
  call into the estimator is recorded as an `Event` of the tick.
-/

namespace Slam2

/-! ## Floating point values -/

/-- A value of an IEEE 754 binary format: a finite rational, an infinity or NaN. -/
inductive FP where
  | fin (q : ℚ)
  | pinf
  | ninf
  | nan
  deriving DecidableEq

/-- The C++ `isfinite`. -/
def isfinite : FP → Bool
  | .fin _ => true
  | _ => false

/-- The C++ `a < b` on floating point values: false as soon as one side is NaN. -/
def FP.lt : FP → FP → Bool
  | .fin a, .fin b => decide (a < b)
  | .fin _, .pinf => true
  | .ninf, .fin _ => true
  | .ninf, .pinf => true
  | _, _ => false

/-- The C++ `a > b`. -/
def FP.gt (a b : FP) : Bool := FP.lt b a

/-- The C++ `a <= b` on floating point values. -/
def FP.le : FP → FP → Bool
  | .fin a, .fin b => decide (a ≤ b)
  | .fin _, .pinf => true
  | .ninf, .fin _ => true
  | .ninf, .ninf => true
  | .ninf, .pinf => true
  | .pinf, .pinf => true
  | _, _ => false

/-- Floor of the binary logarithm of a positive natural number, by repeated halving. -/
def ilog2Aux : Nat → Nat → Nat
  | 0, _ => 0
  | fuel + 1, n => if n ≤ 1 then 0 else ilog2Aux fuel (n / 2) + 1

/-- Floor of the binary logarithm of a positive natural number (`0` at `0`). -/
def ilog2 (n : Nat) : Nat := ilog2Aux n n

/-- Floor of the binary logarithm of a positive rational. -/
def flog2 (q : ℚ) : Int :=
  let k : Int := (ilog2 q.num.natAbs : Int) - (ilog2 q.den : Int)
  if (2 : ℚ) ^ k ≤ q then k else k - 1

/-- Rounding of a rational to the nearest integer, ties to the even one. -/
def roundHalfEven (x : ℚ) : Int :=
  let f := ⌊x⌋
  let r := x - f
  if r < 1 / 2 then f
  else if 1 / 2 < r then f + 1
  else if f % 2 = 0 then f else f + 1

/-- Rounding of a positive rational to a binary format with `p` significant
bits, least exponent of the unit in the last place `emin` and largest finite
value `maxFinite`. -/
def roundPos (p : Nat) (emin : Int) (maxFinite : ℚ) (q : ℚ) : FP :=
  let e := max (flog2 q - ((p : Int) - 1)) emin
  let v := (roundHalfEven (q / (2 : ℚ) ^ e) : ℚ) * (2 : ℚ) ^ e
  if maxFinite < v then .pinf else .fin v

/-- Rounding of a rational to a binary format, to nearest, ties to even. -/
def roundToFormat (p : Nat) (emin : Int) (maxFinite : ℚ) (q : ℚ) : FP :=
  if q = 0 then .fin 0
  else if 0 < q then roundPos p emin maxFinite q
  else
    match roundPos p emin maxFinite (-q) with
    | .fin v => .fin (-v)
    | _ => .ninf

/-- Rounding to `double` (binary64). -/
def binary64 (q : ℚ) : FP :=
  roundToFormat 53 (-1074) ((2 ^ 53 - 1) * 2 ^ 971) q

/-- Rounding to `float` (binary32). -/
def binary32 (q : ℚ) : FP :=
  roundToFormat 24 (-149) ((2 ^ 24 - 1) * 2 ^ 104) q

/-- The C++ conversion `float(x)` of a `double`. -/
def toFloat : FP → FP
  | .fin q => binary32 q
  | x => x

/-- The C++ conversion `double(n)` of an unsigned integer. -/
def toDouble (n : Nat) : FP := binary64 (n : ℚ)

/-- Modelled from the spec: the constant `NANO_SEC` of `common/data_format.hpp`
is not part of the file; its `count()` is the number of nanoseconds in a
second, the unit conversion the spec names. -/
def NANO_SEC_count : Nat := 1000000000

/-- The `double` division `a / NANO_SEC.count()`, the divisor being the
positive finite value `1e9`. -/
def divNanoSec : FP → FP
  | .fin a => binary64 (a / (NANO_SEC_count : ℚ))
  | x => x

/-! ## Data format -/

/-- An `Eigen` 3-vector; `at0`, `at1`, `at2` are its coefficients `(0)`, `(1)`, `(2)`. -/
structure Vector3 where
  at0 : FP
  at1 : FP
  at2 : FP
  deriving DecidableEq

/-- An `Eigen::Vector4d`; `at0` to `at3` are its coefficients `(0)` to `(3)`.
The estimator stores an orientation in it in the order x, y, z, w. -/
structure Vector4d where
  at0 : FP
  at1 : FP
  at2 : FP
  at3 : FP
  deriving DecidableEq

/-- An `Eigen::Quaternion`, as its constructor takes the coefficients and as
the accessors `w()`, `x()`, `y()`, `z()` return them. -/
structure Quaternion where
  w : FP
  x : FP
  y : FP
  z : FP
  deriving DecidableEq

/-- An inertial sample (`imu_type`): the dataset timestamp in nanoseconds, an
unsigned 64-bit integer, and the two single precision 3-vectors. -/
structure imu_type where
  dataset_time : Nat
  angular_v : Vector3
  linear_a : Vector3
  deriving DecidableEq

/-- A camera pair (`cam_type`): its `time` point and its dataset timestamp,
both in nanoseconds, and the two images, identified by a number. -/
structure cam_type where
  time : Nat
  img0 : Nat
  img1 : Nat
  dataset_time : Nat
  deriving DecidableEq

/-- A published pose (`pose_type`), in single precision. -/
structure pose_type where
  sensor_time : Nat
  position : Vector3
  orientation : Quaternion
  deriving DecidableEq

/-- The noise model carried by an integrator input. -/
structure imu_params where
  gyro_noise : FP
  acc_noise : FP
  gyro_walk : FP
  acc_walk : FP
  n_gravity : Vector3
  imu_integration_sigma : FP
  nominal_rate : FP
  deriving DecidableEq

/-- A published integrator input (`imu_integrator_input`), in double precision. -/
structure imu_integrator_input where
  last_cam_integration_time : FP
  t_offset : FP
  params : imu_params
  biasAcc : Vector3
  biasGyro : Vector3
  position : Vector3
  velocity : Vector3
  quat : Quaternion
  deriving DecidableEq

/-- What `feed_imu_cam` reads of the estimator's `State`: `_imu->quat()`,
`_imu->vel()`, `_imu->pos()`, `_imu->bias_a()`, `_imu->bias_g()` and
`_calib_dt_CAMtoIMU->value()(0)`. -/
structure State where
  quat : Vector4d
  vel : Vector3
  pos : Vector3
  bias_a : Vector3
  bias_g : Vector3
  calib_dt_CAMtoIMU : FP
  deriving DecidableEq

/-- The operations of `VioManager` the frontend calls, over an estimator state `E`. -/
structure VioManager (E : Type) where
  feed_measurement_imu : E → FP → Vector3 → Vector3 → E
  feed_measurement_stereo : E → FP → Nat → Nat → Nat → Nat → E
  get_state : E → State
  initialized : E → Bool

/-! ## The plugin -/

/-- The members of `slam2` the callback reads and writes; `_m_cam` holds the
pairs queued in the buffered reader. -/
structure slam2 (E : Type) where
  slow_count : Nat
  fast_count : Nat
  state : Option State
  open_vins_estimator : E
  cam_buffer : Option cam_type
  previous_timestamp : FP
  isUninitialized : Bool
  _m_cam : List cam_type

/-- An effect of the plugin on a collaborator: a call into the estimator, a
`dequeue` of the camera queue, a `put` on one of the two writers. -/
inductive Event where
  | imu (timestamp : FP) (wm am : Vector3)
  | stereo (timestamp : FP) (img0 img1 cam_id0 cam_id1 : Nat)
  | dequeue (cam : cam_type)
  | pose (p : pose_type)
  | integrator (i : imu_integrator_input)
  deriving DecidableEq

/-- The ways a tick ends early for good: `abort()` on a null datum, the
assertion on the timestamp, the assertions on the converted pose. -/
inductive Fault where
  | null_datum
  | timestamp_order
  | non_finite_pose
  deriving DecidableEq

/-- What a tick did: the effects in the order they happened, the members
afterwards and the fault that ended it, if one did. -/
structure Outcome (E : Type) where
  events : List Event
  plugin : slam2 E
  fault : Option Fault

/-- What the environment hands to one invocation of the callback: the datum
(`none` for `nullptr`), the pairs the camera producer enqueued since the queue
was last polled, and the time in nanoseconds the steady clock measures between
`start` and `stop`. -/
structure Delivery where
  datum : Option imu_type
  arrived : List cam_type
  elapsed : Nat
  deriving DecidableEq

/-- The unsigned increment `n++` of a `size_t`, 64 bits wide. -/
def size_t_incr (n : Nat) : Nat := (n + 1) % 2 ^ 64

/-- The noise model `feed_imu_cam` publishes, each literal rounded to `double`. -/
def noise_params : imu_params where
  gyro_noise := binary64 (16968 / 100000000)
  acc_noise := binary64 (2 / 1000)
  gyro_walk := binary64 (19393 / 1000000000)
  acc_walk := binary64 (3 / 1000)
  n_gravity := ⟨binary64 0, binary64 0, binary64 (-981 / 100)⟩
  imu_integration_sigma := binary64 1
  nominal_rate := binary64 200

/-- The constructor `slam2::slam2`: the members' initial values, around the
freshly built estimator `e`, and the one `put` on the pose writer, stamped
with the clock's `now`. -/
def slam2.construct {E : Type} (e : E) (now : Nat) : List Event × slam2 E :=
  ([Event.pose ⟨now, ⟨.fin 0, .fin 0, .fin 0⟩, ⟨.fin 1, .fin 0, .fin 0, .fin 0⟩⟩],
   { slow_count := 0
     fast_count := 0
     state := none
     open_vins_estimator := e
     cam_buffer := none
     previous_timestamp := .fin 0
     isUninitialized := true
     _m_cam := [] })

/-- The value of `timestamp_in_seconds` for a datum. -/
def timestamp_in_seconds (datum : imu_type) : FP :=
  divNanoSec (toDouble datum.dataset_time)

/-- The value of `buffer_timestamp_seconds` for the buffered pair. -/
def buffer_timestamp_seconds (cam_buffer : cam_type) : FP :=
  divNanoSec (toDouble cam_buffer.dataset_time)

/-- The value of `swapped_pos`. -/
def swapped_pos (st : State) : Vector3 :=
  ⟨toFloat st.pos.at0, toFloat st.pos.at1, toFloat st.pos.at2⟩

/-- The value of `swapped_rot`. -/
def swapped_rot (st : State) : Quaternion :=
  ⟨toFloat st.quat.at3, toFloat st.quat.at0, toFloat st.quat.at1, toFloat st.quat.at2⟩

/-- The value of `swapped_rot2`. -/
def swapped_rot2 (st : State) : Quaternion :=
  ⟨st.quat.at3, st.quat.at0, st.quat.at1, st.quat.at2⟩

/-- The seven assertions on the converted pose, in the order of the source. -/
def pose_asserts (st : State) : Bool :=
  isfinite (swapped_rot st).w && isfinite (swapped_rot st).x &&
  isfinite (swapped_rot st).y && isfinite (swapped_rot st).z &&
  isfinite (swapped_pos st).at0 && isfinite (swapped_pos st).at1 &&
  isfinite (swapped_pos st).at2

/-- The tail of `feed_imu_cam`, after the block timed as "IMU": the buffered
pair `cam_buffer` is fused, the state read back, converted, checked and
published, `cam` becomes the buffered pair and the tick is classified. `s` is
the plugin as the first block left it and `pre` the effects so far. -/
def fuse_and_publish {E : Type} (est : VioManager E) (s : slam2 E) (pre : List Event)
    (timestamp : FP) (cam_buffer cam : cam_type) (elapsed : Nat) : Outcome E :=
  let t := buffer_timestamp_seconds cam_buffer
  let e := est.feed_measurement_stereo s.open_vins_estimator t cam_buffer.img0 cam_buffer.img1 0 1
  let st := est.get_state e
  let s1 := { s with open_vins_estimator := e, state := some st }
  let ev1 := pre ++ [Event.stereo t cam_buffer.img0 cam_buffer.img1 0 1]
  if pose_asserts st then
    let publish : Bool := est.initialized e
    let ev2 :=
      if publish then
        ev1 ++ [Event.pose ⟨cam_buffer.time, swapped_pos st, swapped_rot st⟩,
                Event.integrator
                  ⟨timestamp, st.calib_dt_CAMtoIMU, noise_params, st.bias_a, st.bias_g,
                   st.pos, st.vel, swapped_rot2 st⟩]
      else ev1
    let s2 := { s1 with
      isUninitialized := if publish then false else s1.isUninitialized
      cam_buffer := some cam }
    if 100000000 < elapsed then
      ⟨ev2, { s2 with slow_count := size_t_incr s2.slow_count }, none⟩
    else
      ⟨ev2, { s2 with fast_count := size_t_incr s2.fast_count }, none⟩
  else
    ⟨ev1, s1, some Fault.non_finite_pose⟩

/-- The callback `slam2::feed_imu_cam`, one tick of the frontend. -/
def feed_imu_cam {E : Type} (est : VioManager E) (s : slam2 E) (d : Delivery) : Outcome E :=
  match d.datum with
  | none => ⟨[], s, some Fault.null_datum⟩
  | some datum =>
    let timestamp := timestamp_in_seconds datum
    if FP.gt timestamp s.previous_timestamp then
      let s1 := { s with
        previous_timestamp := timestamp
        open_vins_estimator :=
          est.feed_measurement_imu s.open_vins_estimator timestamp datum.angular_v datum.linear_a }
      let ev1 := [Event.imu timestamp datum.angular_v datum.linear_a]
      match s1._m_cam ++ d.arrived with
      | [] => ⟨ev1, s1, none⟩
      | cam :: queued =>
        let s2 := { s1 with _m_cam := queued }
        let ev2 := ev1 ++ [Event.dequeue cam]
        match s2.cam_buffer with
        | none => ⟨ev2, { s2 with cam_buffer := some cam }, none⟩
        | some cam_buffer => fuse_and_publish est s2 ev2 timestamp cam_buffer cam d.elapsed
    else
      ⟨[], s, some Fault.timestamp_order⟩

/-- The ticks of a sequence of deliveries: each tick's effects, the plugin at
the end and the fault that stopped the sequence, if one did. -/
structure Trace (E : Type) where
  ticks : List (List Event)
  plugin : slam2 E
  fault : Option Fault

/-- The callback run on the deliveries in turn, up to the first fault. -/
def run {E : Type} (est : VioManager E) (s : slam2 E) : List Delivery → Trace E
  | [] => ⟨[], s, none⟩
  | d :: ds =>
    let o := feed_imu_cam est s d
    match o.fault with
    | some f => ⟨[o.events], o.plugin, some f⟩
    | none =>
      let r := run est o.plugin ds
      ⟨o.events :: r.ticks, r.plugin, r.fault⟩

/-! ## Reading a tick's effects -/

/-- The timestamps of the inertial samples fed to the estimator. -/
def imuFeeds : List Event → List FP
  | [] => []
  | Event.imu t _ _ :: es => t :: imuFeeds es
  | _ :: es => imuFeeds es

/-- The stereo fusion calls, with their arguments. -/
def stereoFeeds : List Event → List (FP × Nat × Nat × Nat × Nat)
  | [] => []
  | Event.stereo t i0 i1 c0 c1 :: es => (t, i0, i1, c0, c1) :: stereoFeeds es
  | _ :: es => stereoFeeds es

/-- The camera pairs taken from the queue. -/
def dequeued : List Event → List cam_type
  | [] => []
  | Event.dequeue c :: es => c :: dequeued es
  | _ :: es => dequeued es

/-- The poses put on the pose writer. -/
def poses : List Event → List pose_type
  | [] => []
  | Event.pose p :: es => p :: poses es
  | _ :: es => poses es

/-- The inputs put on the integrator writer. -/
def integratorInputs : List Event → List imu_integrator_input
  | [] => []
  | Event.integrator i :: es => i :: integratorInputs es
  | _ :: es => integratorInputs es

/-- The arguments of the stereo fusion call that fuses the pair `c`. -/
def fusionOf (c : cam_type) : FP × Nat × Nat × Nat × Nat :=
  (buffer_timestamp_seconds c, c.img0, c.img1, 0, 1)

/-- All three coefficients of a vector are finite. -/
def Vector3.finite (v : Vector3) : Bool :=
  isfinite v.at0 && isfinite v.at1 && isfinite v.at2

/-- All four coefficients of a quaternion are finite. -/
def Quaternion.finite (q : Quaternion) : Bool :=
  isfinite q.w && isfinite q.x && isfinite q.y && isfinite q.z

/-! ## A scripted estimator -/

/-- A test double of the estimator: its state is the `State` it reports and
the answer of `initialized`; feeding a measurement leaves both as they are. -/
def scripted : VioManager (State × Bool) where
  feed_measurement_imu := fun e _ _ _ => e
  feed_measurement_stereo := fun e _ _ _ _ _ => e
  get_state := fun e => e.1
  initialized := fun e => e.2

/-- A vector of three equal coefficients. -/
def Vector3.all (x : FP) : Vector3 := ⟨x, x, x⟩

/-- An estimator state at rest at the origin, orientation the identity. -/
def restState : State where
  quat := ⟨.fin 0, .fin 0, .fin 0, .fin 1⟩
  vel := Vector3.all (.fin 0)
  pos := Vector3.all (.fin 0)
  bias_a := Vector3.all (.fin 0)
  bias_g := Vector3.all (.fin 0)
  calib_dt_CAMtoIMU := .fin 0

/-! ## What a fusing tick reads back -/

/-- The estimator after the tick's inertial feed. -/
def afterImu {E : Type} (est : VioManager E) (s : slam2 E) (datum : imu_type) : E :=
  est.feed_measurement_imu s.open_vins_estimator (timestamp_in_seconds datum)
    datum.angular_v datum.linear_a

/-- The estimator after the tick's inertial feed and the fusion of the pair `b`. -/
def afterStereo {E : Type} (est : VioManager E) (s : slam2 E) (datum : imu_type)
    (b : cam_type) : E :=
  est.feed_measurement_stereo (afterImu est s datum) (buffer_timestamp_seconds b)
    b.img0 b.img1 0 1

/-- The state a fusing tick reads back from the estimator. -/
def readBack {E : Type} (est : VioManager E) (s : slam2 E) (datum : imu_type)
    (b : cam_type) : State :=
  est.get_state (afterStereo est s datum b)

/-- The effects of a frontend's whole life: those of the constructor, then
those of the ticks run on the deliveries. -/
def lifeEvents {E : Type} (est : VioManager E) (e : E) (now : Nat) (ds : List Delivery) :
    List Event :=
  (slam2.construct e now).1 ++ (run est (slam2.construct e now).2 ds).ticks.flatten

/-! ## Sample inputs -/

/-- An inertial sample stamped `t` nanoseconds, at rest. -/
def sampleAt (t : Nat) : imu_type := ⟨t, Vector3.all (.fin 0), Vector3.all (.fin 0)⟩

/-- The `n`-th camera pair of a 20 Hz stream. -/
def pairAt (n : Nat) : cam_type := ⟨1000 * n, 2 * n, 2 * n + 1, 50000000 * n⟩

/-- A frontend around the scripted estimator `e` that has accepted a sample
stamped one second and holds the pair `pairAt 1`. -/
def holdingFirst (e : State × Bool) : slam2 (State × Bool) :=
  (run scripted (slam2.construct e 0).2 [⟨some (sampleAt 1000000000), [pairAt 1], 5⟩]).plugin

/-- An estimator state whose third position coefficient is NaN. -/
def divergedState : State := { restState with pos := ⟨.fin 0, .fin 0, .nan⟩ }

/-- An estimator state at rest whose velocity has an infinite coefficient. -/
def runawayState : State := { restState with vel := ⟨.pinf, .fin 0, .fin 0⟩ }

/-- An estimator state with the orientation x = 0.1, y = 0.2, z = 0.3,
w = 0.9327, each the nearest `double`. -/
def tiltedState : State :=
  { restState with
    quat := ⟨binary64 (1 / 10), binary64 (2 / 10), binary64 (3 / 10), binary64 (9327 / 10000)⟩ }

/-- Five deliveries, five milliseconds apart, of which the second, the third
and the fifth find a new camera pair queued. -/
def threePairs : List Delivery :=
  [⟨some (sampleAt 1000000000), [], 5⟩,
   ⟨some (sampleAt 1005000000), [pairAt 1], 5⟩,
   ⟨some (sampleAt 1010000000), [pairAt 2], 5⟩,
   ⟨some (sampleAt 1015000000), [], 5⟩,
   ⟨some (sampleAt 1020000000), [pairAt 3], 5⟩]

/-! ## Rounding never underflows a positive timestamp -/

theorem ilog2Aux_spec (fuel : Nat) : ∀ n : Nat, 1 ≤ n → n ≤ fuel →
    2 ^ ilog2Aux fuel n ≤ n ∧ n < 2 ^ (ilog2Aux fuel n + 1) := by
  induction fuel with
  | zero => intro n h1 h2; omega
  | succ fuel ih =>
    intro n h1 h2
    unfold ilog2Aux
    split
    · constructor <;> simp <;> omega
    · obtain ⟨ha, hb⟩ := ih (n / 2) (by omega) (by omega)
      rw [pow_succ] at hb
      constructor
      · rw [pow_succ]; omega
      · rw [pow_succ, pow_succ]; omega

theorem ilog2_spec (n : Nat) (h : 1 ≤ n) : 2 ^ ilog2 n ≤ n ∧ n < 2 ^ (ilog2 n + 1) :=
  ilog2Aux_spec n n h (le_refl n)

theorem flog2_le (q : ℚ) (hq : 0 < q) : (2 : ℚ) ^ flog2 q ≤ q := by
  unfold flog2
  simp only
  split
  · assumption
  · have hnum : 0 < q.num := Rat.num_pos.2 hq
    have hden : 1 ≤ q.den := q.den_pos
    have hn1 : 1 ≤ q.num.natAbs := by omega
    obtain ⟨ha, _⟩ := ilog2_spec q.num.natAbs hn1
    obtain ⟨_, hb⟩ := ilog2_spec q.den hden
    have hqe : q = (q.num.natAbs : ℚ) / (q.den : ℚ) := by
      have h1 : ((q.num.natAbs : ℤ) : ℚ) = (q.num : ℚ) := by
        rw [Int.natAbs_of_nonneg hnum.le]
      have h2 : ((q.num.natAbs : ℤ) : ℚ) = (q.num.natAbs : ℚ) := Int.cast_natCast _
      rw [← h2, h1]
      exact (Rat.num_div_den q).symm
    have hpow : (2 : ℚ) ^ ((ilog2 q.num.natAbs : ℤ) - (ilog2 q.den : ℤ) - 1) =
        (2 : ℚ) ^ ilog2 q.num.natAbs / (2 : ℚ) ^ (ilog2 q.den + 1) := by
      rw [sub_sub, zpow_sub₀ (by norm_num : (2 : ℚ) ≠ 0)]
      norm_cast
    rw [hpow]
    conv_rhs => rw [hqe]
    have ha' : (2 : ℚ) ^ ilog2 q.num.natAbs ≤ (q.num.natAbs : ℚ) := by exact_mod_cast ha
    have hb' : (q.den : ℚ) ≤ (2 : ℚ) ^ (ilog2 q.den + 1) := by exact_mod_cast hb.le
    have hdpos : (0 : ℚ) < (q.den : ℚ) := by exact_mod_cast q.den_pos
    exact div_le_div₀ (by positivity) ha' hdpos hb'

theorem floor_le_roundHalfEven (x : ℚ) : ⌊x⌋ ≤ roundHalfEven x := by
  unfold roundHalfEven
  simp only
  split
  · exact le_refl _
  · split
    · omega
    · split <;> omega

theorem pow_le_roundHalfEven (x : ℚ) (n : Nat) (h : (2 : ℚ) ^ n ≤ x) :
    (2 : ℚ) ^ n ≤ (roundHalfEven x : ℚ) := by
  have h1 : ((2 ^ n : ℤ) : ℚ) ≤ x := by push_cast; exact h
  have h2 : (2 ^ n : ℤ) ≤ ⌊x⌋ := Int.le_floor.2 h1
  have h3 : (2 ^ n : ℤ) ≤ roundHalfEven x := le_trans h2 (floor_le_roundHalfEven x)
  exact_mod_cast h3

/-- Rounding a positive rational never yields less than a power of two below
it, as long as that power is at least the least positive value of the format. -/
theorem roundPos_lower (p : Nat) (emin : Int) (maxFinite q : ℚ) (t : Int) (hp : 1 ≤ p)
    (hq : 0 < q) (ht : (2 : ℚ) ^ t ≤ q) (hmin : emin ≤ t) :
    roundPos p emin maxFinite q = .pinf ∨
      ∃ v, roundPos p emin maxFinite q = .fin v ∧ (2 : ℚ) ^ t ≤ v := by
  unfold roundPos
  simp only
  split
  · exact Or.inl rfl
  · refine Or.inr ⟨_, rfl, ?_⟩
    set e := max (flog2 q - ((p : Int) - 1)) emin with he
    have h2 : (0 : ℚ) < 2 := by norm_num
    have h2ne : (2 : ℚ) ≠ 0 := by norm_num
    have hepos : (0 : ℚ) < (2 : ℚ) ^ e := zpow_pos h2 e
    -- a natural exponent `n` with `2 ^ n ≤ q / 2 ^ e` and `t ≤ n + e`
    obtain ⟨n, hn1, hn2⟩ : ∃ n : Nat, (2 : ℚ) ^ n ≤ q / (2 : ℚ) ^ e ∧ t ≤ (n : Int) + e := by
      by_cases hte : e ≤ t
      · refine ⟨(t - e).toNat, ?_, ?_⟩
        · rw [le_div_iff₀ hepos, ← zpow_natCast, ← zpow_add₀ h2ne,
            Int.toNat_of_nonneg (by omega)]
          simpa using ht
        · rw [Int.toNat_of_nonneg (by omega)]; omega
      · have hee : e = flog2 q - ((p : Int) - 1) := by
          rcases max_choice (flog2 q - ((p : Int) - 1)) emin with h | h
          · exact he.trans h
          · omega
        refine ⟨p - 1, ?_, ?_⟩
        · rw [le_div_iff₀ hepos, ← zpow_natCast, ← zpow_add₀ h2ne]
          have : ((p - 1 : Nat) : Int) + e = flog2 q := by
            rw [hee]; omega
          rw [this]
          exact flog2_le q hq
        · have : ((p - 1 : Nat) : Int) = (p : Int) - 1 := by omega
          omega
    have hm := pow_le_roundHalfEven _ n hn1
    calc (2 : ℚ) ^ t ≤ (2 : ℚ) ^ ((n : Int) + e) :=
          zpow_le_zpow_right₀ (by norm_num) hn2
      _ = (2 : ℚ) ^ n * (2 : ℚ) ^ e := by rw [zpow_add₀ h2ne, zpow_natCast]
      _ ≤ (roundHalfEven (q / (2 : ℚ) ^ e) : ℚ) * (2 : ℚ) ^ e :=
          mul_le_mul_of_nonneg_right hm hepos.le

/-- The timestamp in seconds of a sample is greater than `0.0` exactly when
its timestamp in nanoseconds is not zero. -/
theorem timestamp_pos_iff (datum : imu_type) :
    FP.gt (timestamp_in_seconds datum) (.fin 0) = true ↔ 0 < datum.dataset_time := by
  unfold timestamp_in_seconds toDouble
  constructor
  · intro h
    by_contra h0
    have hz : datum.dataset_time = 0 := by omega
    rw [hz] at h
    simp [binary64, roundToFormat, divNanoSec, FP.gt, FP.lt] at h
  · intro hn
    have hq : (0 : ℚ) < (datum.dataset_time : ℚ) := by exact_mod_cast hn
    have hone : (2 : ℚ) ^ (0 : Int) ≤ (datum.dataset_time : ℚ) := by
      simp only [zpow_zero]
      exact_mod_cast hn
    have hb : binary64 (datum.dataset_time : ℚ) =
        roundPos 53 (-1074) ((2 ^ 53 - 1) * 2 ^ 971) (datum.dataset_time : ℚ) := by
      simp [binary64, roundToFormat, hq, hq.ne']
    rw [hb]
    rcases roundPos_lower 53 (-1074) ((2 ^ 53 - 1) * 2 ^ 971) _ 0 (by norm_num) hq hone
      (by norm_num) with h | ⟨v, h, hv⟩
    · rw [h]; rfl
    · rw [h]
      simp only [zpow_zero] at hv
      have hv0 : (0 : ℚ) < v / (NANO_SEC_count : ℚ) := by
        apply div_pos (by linarith)
        norm_num [NANO_SEC_count]
      have hlow : (2 : ℚ) ^ (-30 : Int) ≤ v / (NANO_SEC_count : ℚ) := by
        rw [le_div_iff₀ (by norm_num [NANO_SEC_count])]
        have : (2 : ℚ) ^ (-30 : Int) * (NANO_SEC_count : ℚ) ≤ 1 := by
          norm_num [NANO_SEC_count]
        linarith
      have hb2 : divNanoSec (.fin v) =
          roundPos 53 (-1074) ((2 ^ 53 - 1) * 2 ^ 971) (v / (NANO_SEC_count : ℚ)) := by
        simp [divNanoSec, binary64, roundToFormat, hv0, hv0.ne']
      rw [hb2]
      rcases roundPos_lower 53 (-1074) ((2 ^ 53 - 1) * 2 ^ 971) _ (-30) (by norm_num) hv0 hlow
        (by norm_num) with h2 | ⟨v2, h2, hv2⟩
      · rw [h2]; rfl
      · rw [h2]
        have : (0 : ℚ) < v2 := lt_of_lt_of_le (by positivity) hv2
        simp [FP.gt, FP.lt, this]

theorem isfinite_of_toFloat (x : FP) (h : isfinite (toFloat x) = true) : isfinite x = true := by
  cases x <;> simp_all [toFloat, isfinite]

theorem FP.lt_trans {a b c : FP} (hab : FP.lt a b = true) (hbc : FP.lt b c = true) :
    FP.lt a c = true := by
  cases a <;> cases b <;> cases c <;> simp_all [FP.lt]
  exact hab.trans hbc

theorem FP.not_gt_of_le {a b : FP} (h : FP.le a b = true) : FP.gt a b = false := by
  cases a <;> cases b <;> simp_all [FP.le, FP.gt, FP.lt]

/-! ## The paths of one tick -/

theorem feed_null {E : Type} (est : VioManager E) (s : slam2 E) (arrived : List cam_type)
    (elapsed : Nat) :
    feed_imu_cam est s ⟨none, arrived, elapsed⟩ = ⟨[], s, some Fault.null_datum⟩ := rfl

theorem feed_rejected {E : Type} (est : VioManager E) (s : slam2 E) (datum : imu_type)
    (arrived : List cam_type) (elapsed : Nat)
    (h : FP.gt (timestamp_in_seconds datum) s.previous_timestamp = false) :
    feed_imu_cam est s ⟨some datum, arrived, elapsed⟩ = ⟨[], s, some Fault.timestamp_order⟩ := by
  simp [feed_imu_cam, h]

theorem feed_idle {E : Type} (est : VioManager E) (s : slam2 E) (datum : imu_type)
    (arrived : List cam_type) (elapsed : Nat)
    (h : FP.gt (timestamp_in_seconds datum) s.previous_timestamp = true)
    (hq : s._m_cam ++ arrived = []) :
    feed_imu_cam est s ⟨some datum, arrived, elapsed⟩ =
      ⟨[Event.imu (timestamp_in_seconds datum) datum.angular_v datum.linear_a],
       { s with
         previous_timestamp := timestamp_in_seconds datum
         open_vins_estimator :=
           est.feed_measurement_imu s.open_vins_estimator (timestamp_in_seconds datum)
             datum.angular_v datum.linear_a },
       none⟩ := by
  simp only [feed_imu_cam, h, if_true]
  rw [hq]

theorem feed_bootstrap {E : Type} (est : VioManager E) (s : slam2 E) (datum : imu_type)
    (arrived : List cam_type) (elapsed : Nat) (cam : cam_type) (queued : List cam_type)
    (h : FP.gt (timestamp_in_seconds datum) s.previous_timestamp = true)
    (hq : s._m_cam ++ arrived = cam :: queued) (hb : s.cam_buffer = none) :
    feed_imu_cam est s ⟨some datum, arrived, elapsed⟩ =
      ⟨[Event.imu (timestamp_in_seconds datum) datum.angular_v datum.linear_a,
        Event.dequeue cam],
       { s with
         previous_timestamp := timestamp_in_seconds datum
         open_vins_estimator :=
           est.feed_measurement_imu s.open_vins_estimator (timestamp_in_seconds datum)
             datum.angular_v datum.linear_a
         _m_cam := queued
         cam_buffer := some cam },
       none⟩ := by
  simp only [feed_imu_cam, h, if_true]
  rw [hq]
  simp [hb]

theorem feed_fusing {E : Type} (est : VioManager E) (s : slam2 E) (datum : imu_type)
    (arrived : List cam_type) (elapsed : Nat) (cam : cam_type) (queued : List cam_type)
    (b : cam_type)
    (h : FP.gt (timestamp_in_seconds datum) s.previous_timestamp = true)
    (hq : s._m_cam ++ arrived = cam :: queued) (hb : s.cam_buffer = some b) :
    feed_imu_cam est s ⟨some datum, arrived, elapsed⟩ =
      fuse_and_publish est
        { s with
          previous_timestamp := timestamp_in_seconds datum
          open_vins_estimator :=
            est.feed_measurement_imu s.open_vins_estimator (timestamp_in_seconds datum)
              datum.angular_v datum.linear_a
          _m_cam := queued }
        [Event.imu (timestamp_in_seconds datum) datum.angular_v datum.linear_a,
         Event.dequeue cam]
        (timestamp_in_seconds datum) b cam elapsed := by
  simp only [feed_imu_cam, h, if_true]
  rw [hq]
  simp [hb]

theorem feed_fusing_fault {E : Type} (est : VioManager E) (s : slam2 E) (datum : imu_type)
    (arrived : List cam_type) (elapsed : Nat) (cam : cam_type) (queued : List cam_type)
    (b : cam_type)
    (h : FP.gt (timestamp_in_seconds datum) s.previous_timestamp = true)
    (hq : s._m_cam ++ arrived = cam :: queued) (hb : s.cam_buffer = some b)
    (ha : pose_asserts (readBack est s datum b) = false) :
    feed_imu_cam est s ⟨some datum, arrived, elapsed⟩ =
      ⟨[Event.imu (timestamp_in_seconds datum) datum.angular_v datum.linear_a,
        Event.dequeue cam,
        Event.stereo (buffer_timestamp_seconds b) b.img0 b.img1 0 1],
       { s with
         previous_timestamp := timestamp_in_seconds datum
         open_vins_estimator := afterStereo est s datum b
         _m_cam := queued
         state := some (readBack est s datum b) },
       some Fault.non_finite_pose⟩ := by
  rw [feed_fusing est s datum arrived elapsed cam queued b h hq hb]
  simp only [readBack, afterStereo, afterImu] at ha
  simp [fuse_and_publish, ha, afterStereo, afterImu, readBack]

theorem feed_fusing_silent {E : Type} (est : VioManager E) (s : slam2 E) (datum : imu_type)
    (arrived : List cam_type) (elapsed : Nat) (cam : cam_type) (queued : List cam_type)
    (b : cam_type)
    (h : FP.gt (timestamp_in_seconds datum) s.previous_timestamp = true)
    (hq : s._m_cam ++ arrived = cam :: queued) (hb : s.cam_buffer = some b)
    (ha : pose_asserts (readBack est s datum b) = true)
    (hi : est.initialized (afterStereo est s datum b) = false) :
    feed_imu_cam est s ⟨some datum, arrived, elapsed⟩ =
      ⟨[Event.imu (timestamp_in_seconds datum) datum.angular_v datum.linear_a,
        Event.dequeue cam,
        Event.stereo (buffer_timestamp_seconds b) b.img0 b.img1 0 1],
       { s with
         previous_timestamp := timestamp_in_seconds datum
         open_vins_estimator := afterStereo est s datum b
         _m_cam := queued
         state := some (readBack est s datum b)
         cam_buffer := some cam
         slow_count := if 100000000 < elapsed then size_t_incr s.slow_count else s.slow_count
         fast_count := if 100000000 < elapsed then s.fast_count else size_t_incr s.fast_count },
       none⟩ := by
  rw [feed_fusing est s datum arrived elapsed cam queued b h hq hb]
  simp only [readBack, afterStereo, afterImu] at ha hi
  by_cases hs : 100000000 < elapsed <;>
    simp [fuse_and_publish, ha, hi, hs, afterStereo, afterImu, readBack]

theorem feed_fusing_publish {E : Type} (est : VioManager E) (s : slam2 E) (datum : imu_type)
    (arrived : List cam_type) (elapsed : Nat) (cam : cam_type) (queued : List cam_type)
    (b : cam_type)
    (h : FP.gt (timestamp_in_seconds datum) s.previous_timestamp = true)
    (hq : s._m_cam ++ arrived = cam :: queued) (hb : s.cam_buffer = some b)
    (ha : pose_asserts (readBack est s datum b) = true)
    (hi : est.initialized (afterStereo est s datum b) = true) :
    feed_imu_cam est s ⟨some datum, arrived, elapsed⟩ =
      ⟨[Event.imu (timestamp_in_seconds datum) datum.angular_v datum.linear_a,
        Event.dequeue cam,
        Event.stereo (buffer_timestamp_seconds b) b.img0 b.img1 0 1,
        Event.pose ⟨b.time, swapped_pos (readBack est s datum b),
          swapped_rot (readBack est s datum b)⟩,
        Event.integrator
          ⟨timestamp_in_seconds datum, (readBack est s datum b).calib_dt_CAMtoIMU,
           noise_params, (readBack est s datum b).bias_a, (readBack est s datum b).bias_g,
           (readBack est s datum b).pos, (readBack est s datum b).vel,
           swapped_rot2 (readBack est s datum b)⟩],
       { s with
         previous_timestamp := timestamp_in_seconds datum
         open_vins_estimator := afterStereo est s datum b
         _m_cam := queued
         state := some (readBack est s datum b)
         isUninitialized := false
         cam_buffer := some cam
         slow_count := if 100000000 < elapsed then size_t_incr s.slow_count else s.slow_count
         fast_count := if 100000000 < elapsed then s.fast_count else size_t_incr s.fast_count },
       none⟩ := by
  rw [feed_fusing est s datum arrived elapsed cam queued b h hq hb]
  simp only [readBack, afterStereo, afterImu] at ha hi
  by_cases hs : 100000000 < elapsed <;>
    simp [fuse_and_publish, ha, hi, hs, afterStereo, afterImu, readBack]

/-! ## Sequences of ticks -/

theorem imuFeeds_append (a b : List Event) : imuFeeds (a ++ b) = imuFeeds a ++ imuFeeds b := by
  induction a with
  | nil => rfl
  | cons e es ih => cases e <;> simp [imuFeeds, ih]

theorem stereoFeeds_append (a b : List Event) :
    stereoFeeds (a ++ b) = stereoFeeds a ++ stereoFeeds b := by
  induction a with
  | nil => rfl
  | cons e es ih => cases e <;> simp [stereoFeeds, ih]

theorem dequeued_append (a b : List Event) : dequeued (a ++ b) = dequeued a ++ dequeued b := by
  induction a with
  | nil => rfl
  | cons e es ih => cases e <;> simp [dequeued, ih]

/-- A sample stamped later than the previous timestamp is the one sample the
tick feeds, and its timestamp becomes the previous timestamp. -/
theorem tick_accepts {E : Type} (est : VioManager E) (s : slam2 E) (datum : imu_type)
    (arrived : List cam_type) (elapsed : Nat)
    (ht : FP.gt (timestamp_in_seconds datum) s.previous_timestamp = true) :
    imuFeeds (feed_imu_cam est s ⟨some datum, arrived, elapsed⟩).events =
        [timestamp_in_seconds datum] ∧
      (feed_imu_cam est s ⟨some datum, arrived, elapsed⟩).plugin.previous_timestamp =
        timestamp_in_seconds datum := by
  cases hq : s._m_cam ++ arrived with
  | nil => simp [feed_idle est s datum arrived elapsed ht hq, imuFeeds]
  | cons cam queued =>
    cases hb : s.cam_buffer with
    | none =>
      simp [feed_bootstrap est s datum arrived elapsed cam queued ht hq hb, imuFeeds]
    | some b =>
      cases ha : pose_asserts (readBack est s datum b) with
      | false =>
        simp [feed_fusing_fault est s datum arrived elapsed cam queued b ht hq hb ha,
          imuFeeds]
      | true =>
        cases hp : est.initialized (afterStereo est s datum b) with
        | false =>
          simp [feed_fusing_silent est s datum arrived elapsed cam queued b ht hq hb ha hp,
            imuFeeds]
        | true =>
          simp [feed_fusing_publish est s datum arrived elapsed cam queued b ht hq hb ha
            hp, imuFeeds]

/-- What one tick does to the inertial feed: it feeds nothing and ends in a
fault, or feeds one sample, stamped later than the previous timestamp, which
becomes the previous timestamp. -/
theorem tick_imu {E : Type} (est : VioManager E) (s : slam2 E) (d : Delivery) :
    (imuFeeds (feed_imu_cam est s d).events = [] ∧ (feed_imu_cam est s d).fault ≠ none) ∨
      ∃ t, imuFeeds (feed_imu_cam est s d).events = [t] ∧
        FP.lt s.previous_timestamp t = true ∧
        (feed_imu_cam est s d).plugin.previous_timestamp = t := by
  obtain ⟨datum, arrived, elapsed⟩ := d
  cases datum with
  | none => simp [feed_null, imuFeeds]
  | some datum =>
    cases ht : FP.gt (timestamp_in_seconds datum) s.previous_timestamp with
    | false => simp [feed_rejected est s datum arrived elapsed ht, imuFeeds]
    | true =>
      exact Or.inr ⟨timestamp_in_seconds datum, (tick_accepts est s datum arrived elapsed ht).1,
        ht, (tick_accepts est s datum arrived elapsed ht).2⟩

theorem run_imu_increasing {E : Type} (est : VioManager E) (ds : List Delivery) :
    ∀ s : slam2 E,
      List.Pairwise (fun a b => FP.lt a b = true) (imuFeeds (run est s ds).ticks.flatten) ∧
      ∀ t ∈ imuFeeds (run est s ds).ticks.flatten, FP.lt s.previous_timestamp t = true := by
  induction ds with
  | nil => intro s; simp [run, imuFeeds]
  | cons d ds ih =>
    intro s
    rcases tick_imu est s d with ⟨h0, hf⟩ | ⟨t, h1, hlt, hprev⟩
    · cases hfault : (feed_imu_cam est s d).fault with
      | none => exact absurd hfault hf
      | some f => simp [run, hfault, h0]
    · cases hfault : (feed_imu_cam est s d).fault with
      | some f => simp [run, hfault, h1, hlt]
      | none =>
        obtain ⟨ihp, ihl⟩ := ih (feed_imu_cam est s d).plugin
        rw [hprev] at ihl
        simp only [run, hfault, List.flatten_cons, imuFeeds_append, h1, List.singleton_append,
          List.pairwise_cons, List.mem_cons, forall_eq_or_imp]
        exact ⟨⟨ihl, ihp⟩, hlt, fun u hu => FP.lt_trans hlt (ihl u hu)⟩

/-- What a tick that ends without a fault does to the camera pairs: it
dequeues none, fuses none and keeps the buffered pair; or it dequeues one,
fuses the pair buffered before it (none when the buffer was empty) and buffers
the new pair. -/
theorem tick_delay {E : Type} (est : VioManager E) (s : slam2 E) (d : Delivery)
    (hf : (feed_imu_cam est s d).fault = none) :
    (dequeued (feed_imu_cam est s d).events = [] ∧
        stereoFeeds (feed_imu_cam est s d).events = [] ∧
        (feed_imu_cam est s d).plugin.cam_buffer = s.cam_buffer) ∨
      ∃ c, dequeued (feed_imu_cam est s d).events = [c] ∧
        stereoFeeds (feed_imu_cam est s d).events = s.cam_buffer.toList.map fusionOf ∧
        (feed_imu_cam est s d).plugin.cam_buffer = some c := by
  obtain ⟨datum, arrived, elapsed⟩ := d
  cases datum with
  | none => simp [feed_null] at hf
  | some datum =>
    cases ht : FP.gt (timestamp_in_seconds datum) s.previous_timestamp with
    | false => simp [feed_rejected est s datum arrived elapsed ht] at hf
    | true =>
      cases hq : s._m_cam ++ arrived with
      | nil =>
        simp [feed_idle est s datum arrived elapsed ht hq, dequeued, stereoFeeds]
      | cons cam queued =>
        cases hb : s.cam_buffer with
        | none =>
          simp [feed_bootstrap est s datum arrived elapsed cam queued ht hq hb, dequeued,
            stereoFeeds]
        | some b =>
          cases ha : pose_asserts (readBack est s datum b) with
          | false =>
            simp [feed_fusing_fault est s datum arrived elapsed cam queued b ht hq hb ha] at hf
          | true =>
            cases hp : est.initialized (afterStereo est s datum b) with
            | false =>
              simp [feed_fusing_silent est s datum arrived elapsed cam queued b ht hq hb ha hp,
                dequeued, stereoFeeds, fusionOf]
            | true =>
              simp [feed_fusing_publish est s datum arrived elapsed cam queued b ht hq hb ha
                hp, dequeued, stereoFeeds, fusionOf]

theorem getLast?_toList_append_cons {α : Type} (b : Option α) (c : α) (l : List α) :
    (b.toList ++ (c :: l)).getLast? = ((some c).toList ++ l).getLast? := by
  rw [List.getLast?_append_cons]
  simp

theorem dropLast_toList_append_cons {α : Type} (b : Option α) (c : α) (l : List α) :
    (b.toList ++ (c :: l)).dropLast = b.toList ++ ((some c).toList ++ l).dropLast := by
  rw [List.dropLast_append_of_ne_nil _ (List.cons_ne_nil c l)]
  simp

theorem run_delay {E : Type} (est : VioManager E) (ds : List Delivery) :
    ∀ s : slam2 E, (run est s ds).fault = none →
      stereoFeeds (run est s ds).ticks.flatten =
        ((s.cam_buffer.toList ++ dequeued (run est s ds).ticks.flatten).dropLast).map fusionOf ∧
      (run est s ds).plugin.cam_buffer =
        (s.cam_buffer.toList ++ dequeued (run est s ds).ticks.flatten).getLast? ∧
      ∀ (i : Nat) (tick : List Event), (run est s ds).ticks[i]? = some tick →
        (dequeued tick = [] ∧ stereoFeeds tick = []) ∨
        ∃ c, dequeued tick = [c] ∧
          stereoFeeds tick =
            ((s.cam_buffer.toList ++
              dequeued ((run est s ds).ticks.take i).flatten).getLast?.toList).map fusionOf := by
  induction ds with
  | nil =>
    intro s _
    cases hb : s.cam_buffer <;> simp [run, stereoFeeds, dequeued, hb]
  | cons d ds ih =>
    intro s hf
    cases hfault : (feed_imu_cam est s d).fault with
    | some f => simp [run, hfault] at hf
    | none =>
      have hrest : (run est (feed_imu_cam est s d).plugin ds).fault = none := by
        simpa [run, hfault] using hf
      obtain ⟨ih1, ih2, ih3⟩ := ih (feed_imu_cam est s d).plugin hrest
      simp only [run, hfault, List.flatten_cons, stereoFeeds_append, dequeued_append]
      rcases tick_delay est s d hfault with ⟨hd, hs, hc⟩ | ⟨c, hd, hs, hc⟩
      · rw [hc] at ih1 ih2 ih3
        refine ⟨by simp [hd, hs, ih1], by simp [hd, ih2], ?_⟩
        intro i tick hi
        cases i with
        | zero =>
          simp only [List.getElem?_cons_zero, Option.some.injEq] at hi
          subst hi
          exact Or.inl ⟨hd, hs⟩
        | succ i =>
          simp only [List.getElem?_cons_succ] at hi
          simpa [List.take_succ_cons, dequeued_append, hd] using ih3 i tick hi
      · rw [hc] at ih1 ih2 ih3
        refine ⟨?_, ?_, ?_⟩
        · rw [hd, hs, ih1, List.singleton_append, dropLast_toList_append_cons, List.map_append]
        · rw [hd, ih2, List.singleton_append, getLast?_toList_append_cons]
        · intro i tick hi
          cases i with
          | zero =>
            simp only [List.getElem?_cons_zero, Option.some.injEq] at hi
            subst hi
            exact Or.inr ⟨c, hd, by cases hb : s.cam_buffer <;> simp [hs, hb, dequeued]⟩
          | succ i =>
            simp only [List.getElem?_cons_succ] at hi
            rcases ih3 i tick hi with h | ⟨c2, h1, h2⟩
            · exact Or.inl h
            · refine Or.inr ⟨c2, h1, ?_⟩
              rw [h2, List.take_succ_cons, List.flatten_cons, dequeued_append, hd,
                List.singleton_append, getLast?_toList_append_cons]

theorem pose_asserts_iff (st : State) :
    pose_asserts st = true ↔
      (swapped_rot st).finite = true ∧ (swapped_pos st).finite = true := by
  simp [pose_asserts, Quaternion.finite, Vector3.finite, and_assoc]

theorem pos_finite_of_asserts (st : State) (h : pose_asserts st = true) :
    st.pos.finite = true := by
  have h2 := ((pose_asserts_iff st).1 h).2
  simp only [Vector3.finite, swapped_pos, Bool.and_eq_true] at h2 ⊢
  exact ⟨⟨isfinite_of_toFloat _ h2.1.1, isfinite_of_toFloat _ h2.1.2⟩,
    isfinite_of_toFloat _ h2.2⟩

theorem rot2_finite_of_asserts (st : State) (h : pose_asserts st = true) :
    (swapped_rot2 st).finite = true := by
  have h1 := ((pose_asserts_iff st).1 h).1
  simp only [Quaternion.finite, swapped_rot, swapped_rot2, Bool.and_eq_true] at h1 ⊢
  exact ⟨⟨⟨isfinite_of_toFloat _ h1.1.1.1, isfinite_of_toFloat _ h1.1.1.2⟩,
    isfinite_of_toFloat _ h1.1.2⟩, isfinite_of_toFloat _ h1.2⟩

theorem poses_append (a b : List Event) : poses (a ++ b) = poses a ++ poses b := by
  induction a with
  | nil => rfl
  | cons e es ih => cases e <;> simp [poses, ih]

theorem integratorInputs_append (a b : List Event) :
    integratorInputs (a ++ b) = integratorInputs a ++ integratorInputs b := by
  induction a with
  | nil => rfl
  | cons e es ih => cases e <;> simp [integratorInputs, ih]

/-- A tick on which `initialized()` answers false publishes nothing. -/
theorem tick_no_publish {E : Type} (est : VioManager E) (s : slam2 E) (d : Delivery)
    (hi : est.initialized (feed_imu_cam est s d).plugin.open_vins_estimator = false) :
    poses (feed_imu_cam est s d).events = [] ∧
      integratorInputs (feed_imu_cam est s d).events = [] := by
  obtain ⟨datum, arrived, elapsed⟩ := d
  cases datum with
  | none => simp [feed_null, poses, integratorInputs]
  | some datum =>
    cases ht : FP.gt (timestamp_in_seconds datum) s.previous_timestamp with
    | false => simp [feed_rejected est s datum arrived elapsed ht, poses, integratorInputs]
    | true =>
      cases hq : s._m_cam ++ arrived with
      | nil => simp [feed_idle est s datum arrived elapsed ht hq, poses, integratorInputs]
      | cons cam queued =>
        cases hb : s.cam_buffer with
        | none =>
          simp [feed_bootstrap est s datum arrived elapsed cam queued ht hq hb, poses,
            integratorInputs]
        | some b =>
          cases ha : pose_asserts (readBack est s datum b) with
          | false =>
            simp [feed_fusing_fault est s datum arrived elapsed cam queued b ht hq hb ha,
              poses, integratorInputs]
          | true =>
            cases hp : est.initialized (afterStereo est s datum b) with
            | false =>
              simp [feed_fusing_silent est s datum arrived elapsed cam queued b ht hq hb ha hp,
                poses, integratorInputs]
            | true =>
              rw [feed_fusing_publish est s datum arrived elapsed cam queued b ht hq hb ha hp]
                at hi
              simp [hp] at hi

/-- Around an estimator that never answers `initialized()` with true, no
sequence of ticks publishes anything. -/
theorem run_no_publish {E : Type} (est : VioManager E)
    (hi : ∀ x, est.initialized x = false) (ds : List Delivery) :
    ∀ s : slam2 E, poses (run est s ds).ticks.flatten = [] ∧
      integratorInputs (run est s ds).ticks.flatten = [] := by
  induction ds with
  | nil => intro s; simp [run, poses, integratorInputs]
  | cons d ds ih =>
    intro s
    obtain ⟨h1, h2⟩ := tick_no_publish est s d (hi _)
    cases hfault : (feed_imu_cam est s d).fault with
    | some f => simp [run, hfault, h1, h2]
    | none =>
      obtain ⟨i1, i2⟩ := ih (feed_imu_cam est s d).plugin
      simp [run, hfault, poses_append, integratorInputs_append, h1, h2, i1, i2]

/-! ## The properties of the frontend -/

/-- C1 (one-step delay): for every sequence of ticks from the constructed
state that ends without a fault, the stereo fusion calls are, in order, those
of the dequeued pairs but the last; the tick that dequeues a pair is the tick
that fuses the pair dequeued just before it, and fuses nothing when no pair was
dequeued before; a tick that dequeues nothing fuses nothing; and at the end the
buffered pair is the last pair dequeued. -/
theorem one_step_delay {E : Type} (est : VioManager E) (e : E) (now : Nat)
    (ds : List Delivery)
    (hf : (run est (slam2.construct e now).2 ds).fault = none) :
    stereoFeeds (run est (slam2.construct e now).2 ds).ticks.flatten =
        ((dequeued (run est (slam2.construct e now).2 ds).ticks.flatten).dropLast).map
          fusionOf ∧
      (run est (slam2.construct e now).2 ds).plugin.cam_buffer =
        (dequeued (run est (slam2.construct e now).2 ds).ticks.flatten).getLast? ∧
      ∀ (i : Nat) (tick : List Event),
        (run est (slam2.construct e now).2 ds).ticks[i]? = some tick →
        (dequeued tick = [] ∧ stereoFeeds tick = []) ∨
        ∃ c, dequeued tick = [c] ∧
          stereoFeeds tick =
            ((dequeued ((run est (slam2.construct e now).2 ds).ticks.take i).flatten).getLast?.toList).map
              fusionOf := by
  have h := run_delay est ds (slam2.construct e now).2 hf
  simpa [slam2.construct] using h

/-- The one-step delay on `threePairs`: the ticks dequeue nothing, the first
pair, the second, nothing, the third; they fuse nothing, nothing, the first
pair, nothing, the second; the third pair stays buffered. -/
theorem one_step_delay_witness :
    (run scripted (slam2.construct (restState, true) 0).2 threePairs).fault = none ∧
      (run scripted (slam2.construct (restState, true) 0).2 threePairs).ticks.map dequeued =
        [[], [pairAt 1], [pairAt 2], [], [pairAt 3]] ∧
      (run scripted (slam2.construct (restState, true) 0).2 threePairs).ticks.map stereoFeeds =
        [[], [], [fusionOf (pairAt 1)], [], [fusionOf (pairAt 2)]] ∧
      stereoFeeds (run scripted (slam2.construct (restState, true) 0).2 threePairs).ticks.flatten =
        ((dequeued (run scripted (slam2.construct (restState, true) 0).2
          threePairs).ticks.flatten).dropLast).map fusionOf ∧
      (run scripted (slam2.construct (restState, true) 0).2 threePairs).plugin.cam_buffer =
        (dequeued (run scripted (slam2.construct (restState, true) 0).2
          threePairs).ticks.flatten).getLast? ∧
      (run scripted (slam2.construct (restState, true) 0).2 threePairs).plugin.cam_buffer =
        some (pairAt 3) :=
  have h := one_step_delay scripted (restState, true) 0 threePairs (by decide!)
  ⟨by decide!, by decide!, by decide!, h.1, h.2.1, by decide!⟩

/-- C2 (monotonicity): from every state and for every inertial sample, the
sample is fed to the estimator if and only if its timestamp in seconds is
strictly greater than the previous timestamp, and it then becomes the previous
timestamp; a sample whose timestamp is not strictly greater, in particular one
that is equal or smaller, ends the tick in the timestamp fault with nothing
fed; so the timestamps fed over any sequence of ticks are strictly increasing. -/
theorem timestamp_monotonicity {E : Type} (est : VioManager E) (s : slam2 E)
    (datum : imu_type) (arrived : List cam_type) (elapsed : Nat) (ds : List Delivery) :
    (imuFeeds (feed_imu_cam est s ⟨some datum, arrived, elapsed⟩).events =
          [timestamp_in_seconds datum] ↔
        FP.gt (timestamp_in_seconds datum) s.previous_timestamp = true) ∧
      (FP.gt (timestamp_in_seconds datum) s.previous_timestamp = true →
        (feed_imu_cam est s ⟨some datum, arrived, elapsed⟩).plugin.previous_timestamp =
          timestamp_in_seconds datum) ∧
      (FP.gt (timestamp_in_seconds datum) s.previous_timestamp = false →
        (feed_imu_cam est s ⟨some datum, arrived, elapsed⟩).fault =
          some Fault.timestamp_order ∧
        (feed_imu_cam est s ⟨some datum, arrived, elapsed⟩).events = []) ∧
      (FP.le (timestamp_in_seconds datum) s.previous_timestamp = true →
        (feed_imu_cam est s ⟨some datum, arrived, elapsed⟩).fault =
          some Fault.timestamp_order ∧
        (feed_imu_cam est s ⟨some datum, arrived, elapsed⟩).events = []) ∧
      List.Pairwise (fun a b => FP.lt a b = true) (imuFeeds (run est s ds).ticks.flatten) := by
  have hrej : FP.gt (timestamp_in_seconds datum) s.previous_timestamp = false →
      (feed_imu_cam est s ⟨some datum, arrived, elapsed⟩).fault =
        some Fault.timestamp_order ∧
      (feed_imu_cam est s ⟨some datum, arrived, elapsed⟩).events = [] := by
    intro h
    simp [feed_rejected est s datum arrived elapsed h]
  refine ⟨?_, fun ht => (tick_accepts est s datum arrived elapsed ht).2, hrej,
    fun h => hrej (FP.not_gt_of_le h), (run_imu_increasing est ds s).1⟩
  cases ht : FP.gt (timestamp_in_seconds datum) s.previous_timestamp with
  | false => simp [(hrej ht).2, imuFeeds]
  | true => simp [(tick_accepts est s datum arrived elapsed ht).1]

/-- C3, as stated, fails: around an estimator that never reports
`initialized()`, over a life of three ticks of which the last fuses a pair, a
pose is put on the pose writer all the same, by the constructor. -/
theorem premature_publish_by_constructor :
    scripted.initialized (restState, false) = false ∧
      poses (lifeEvents scripted (restState, false) 7
        [⟨some (sampleAt 1000000000), [], 5⟩,
         ⟨some (sampleAt 1005000000), [pairAt 1], 5⟩,
         ⟨some (sampleAt 1010000000), [pairAt 2], 5⟩]) =
        [⟨7, ⟨.fin 0, .fin 0, .fin 0⟩, ⟨.fin 1, .fin 0, .fin 0, .fin 0⟩⟩] := by
  decide!

/-- C3 (no premature publish), amended: a tick on which `initialized()`
answers false puts no pose and no integrator input on a writer, from every
state and for every delivery; over a whole life around an estimator that never
answers true, the one pose on the pose writer is the constructor's (stamped
`now`, at the origin, orientation the identity) and the integrator writer
stays empty. -/
theorem no_publish_before_initialized {E : Type} (est : VioManager E) (s : slam2 E)
    (d : Delivery) (e : E) (now : Nat) (ds : List Delivery)
    (hi : est.initialized (feed_imu_cam est s d).plugin.open_vins_estimator = false) :
    poses (feed_imu_cam est s d).events = [] ∧
      integratorInputs (feed_imu_cam est s d).events = [] ∧
      ((∀ x, est.initialized x = false) →
        poses (lifeEvents est e now ds) =
          [⟨now, ⟨.fin 0, .fin 0, .fin 0⟩, ⟨.fin 1, .fin 0, .fin 0, .fin 0⟩⟩] ∧
        integratorInputs (lifeEvents est e now ds) = []) := by
  refine ⟨(tick_no_publish est s d hi).1, (tick_no_publish est s d hi).2, fun hall => ?_⟩
  obtain ⟨h1, h2⟩ := run_no_publish est hall ds (slam2.construct e now).2
  unfold lifeEvents
  rw [poses_append, integratorInputs_append, h1, h2]
  exact ⟨rfl, rfl⟩

/-- A fusing tick around a scripted estimator that is not initialized: the
buffered pair is fused and nothing is published. -/
theorem no_publish_before_initialized_witness :
    stereoFeeds (feed_imu_cam scripted (holdingFirst (restState, false))
        ⟨some (sampleAt 1005000000), [pairAt 2], 5⟩).events = [fusionOf (pairAt 1)] ∧
      poses (feed_imu_cam scripted (holdingFirst (restState, false))
        ⟨some (sampleAt 1005000000), [pairAt 2], 5⟩).events = [] ∧
      integratorInputs (feed_imu_cam scripted (holdingFirst (restState, false))
        ⟨some (sampleAt 1005000000), [pairAt 2], 5⟩).events = [] ∧
      poses (lifeEvents scripted (restState, false) 7 threePairs) =
        [⟨7, ⟨.fin 0, .fin 0, .fin 0⟩, ⟨.fin 1, .fin 0, .fin 0, .fin 0⟩⟩] ∧
      integratorInputs (lifeEvents scripted (restState, false) 7 threePairs) = [] :=
  have h := no_publish_before_initialized scripted (holdingFirst (restState, false))
    ⟨some (sampleAt 1005000000), [pairAt 2], 5⟩ (restState, false) 7 threePairs (by decide!)
  ⟨by decide!, h.1, h.2.1, by decide!, by decide!⟩

/-- C4 (finite-output guard): on every fusing tick (valid timestamp, a pair
dequeued, a pair buffered), if one of the seven converted pose scalars read
back from the estimator is not finite, the tick ends in the fault of the pose
assertions and puts neither a pose nor an integrator input on a writer,
whatever `initialized()` answers. -/
theorem finite_output_guard {E : Type} (est : VioManager E) (s : slam2 E) (datum : imu_type)
    (arrived : List cam_type) (elapsed : Nat) (cam : cam_type) (queued : List cam_type)
    (b : cam_type)
    (ht : FP.gt (timestamp_in_seconds datum) s.previous_timestamp = true)
    (hq : s._m_cam ++ arrived = cam :: queued) (hb : s.cam_buffer = some b)
    (hbad : isfinite (toFloat (readBack est s datum b).quat.at3) = false ∨
      isfinite (toFloat (readBack est s datum b).quat.at0) = false ∨
      isfinite (toFloat (readBack est s datum b).quat.at1) = false ∨
      isfinite (toFloat (readBack est s datum b).quat.at2) = false ∨
      isfinite (toFloat (readBack est s datum b).pos.at0) = false ∨
      isfinite (toFloat (readBack est s datum b).pos.at1) = false ∨
      isfinite (toFloat (readBack est s datum b).pos.at2) = false) :
    (feed_imu_cam est s ⟨some datum, arrived, elapsed⟩).fault = some Fault.non_finite_pose ∧
      poses (feed_imu_cam est s ⟨some datum, arrived, elapsed⟩).events = [] ∧
      integratorInputs (feed_imu_cam est s ⟨some datum, arrived, elapsed⟩).events = [] := by
  have ha : pose_asserts (readBack est s datum b) = false := by
    simp only [pose_asserts, swapped_rot, swapped_pos]
    rcases hbad with h | h | h | h | h | h | h <;> simp [h]
  rw [feed_fusing_fault est s datum arrived elapsed cam queued b ht hq hb ha]
  simp [poses, integratorInputs]

/-- A fusing tick around an initialized estimator whose position has a NaN
coefficient: the fault, and nothing published. -/
theorem finite_output_guard_witness :
    (feed_imu_cam scripted (holdingFirst (divergedState, true))
        ⟨some (sampleAt 1005000000), [pairAt 2], 5⟩).fault = some Fault.non_finite_pose ∧
      poses (feed_imu_cam scripted (holdingFirst (divergedState, true))
        ⟨some (sampleAt 1005000000), [pairAt 2], 5⟩).events = [] ∧
      integratorInputs (feed_imu_cam scripted (holdingFirst (divergedState, true))
        ⟨some (sampleAt 1005000000), [pairAt 2], 5⟩).events = [] :=
  finite_output_guard scripted (holdingFirst (divergedState, true)) (sampleAt 1005000000)
    [pairAt 2] 5 (pairAt 2) [] (pairAt 1) (by decide!) (by decide!) (by decide!)
    (Or.inr (Or.inr (Or.inr (Or.inr (Or.inr (Or.inr (by decide!)))))))

/-- C5, as stated, fails: a fusing tick around an initialized estimator whose
velocity has an infinite coefficient ends without a fault and puts an
integrator input on the writer whose velocity is that non-finite vector. -/
theorem non_finite_velocity_published :
    (feed_imu_cam scripted (holdingFirst (runawayState, true))
        ⟨some (sampleAt 1005000000), [pairAt 2], 5⟩).fault = none ∧
      (integratorInputs (feed_imu_cam scripted (holdingFirst (runawayState, true))
        ⟨some (sampleAt 1005000000), [pairAt 2], 5⟩).events).map
          (fun i => (i.velocity, i.velocity.finite)) =
        [(⟨.pinf, .fin 0, .fin 0⟩, false)] := by
  decide!

/-- C5 (published fields are finite), amended: from every state and for every
delivery and estimator, each pose a tick puts on the pose writer has a finite
position and a finite orientation, and each integrator input it puts on the
integrator writer has a finite position and a finite orientation. (The time
offset, the two biases and the velocity are copied from the estimator
unchecked.) -/
theorem published_pose_finite {E : Type} (est : VioManager E) (s : slam2 E) (d : Delivery) :
    (∀ p ∈ poses (feed_imu_cam est s d).events,
        p.position.finite = true ∧ p.orientation.finite = true) ∧
      (∀ i ∈ integratorInputs (feed_imu_cam est s d).events,
        i.position.finite = true ∧ i.quat.finite = true) := by
  obtain ⟨datum, arrived, elapsed⟩ := d
  cases datum with
  | none => simp [feed_null, poses, integratorInputs]
  | some datum =>
    cases ht : FP.gt (timestamp_in_seconds datum) s.previous_timestamp with
    | false => simp [feed_rejected est s datum arrived elapsed ht, poses, integratorInputs]
    | true =>
      cases hq : s._m_cam ++ arrived with
      | nil => simp [feed_idle est s datum arrived elapsed ht hq, poses, integratorInputs]
      | cons cam queued =>
        cases hb : s.cam_buffer with
        | none =>
          simp [feed_bootstrap est s datum arrived elapsed cam queued ht hq hb, poses,
            integratorInputs]
        | some b =>
          cases ha : pose_asserts (readBack est s datum b) with
          | false =>
            simp [feed_fusing_fault est s datum arrived elapsed cam queued b ht hq hb ha,
              poses, integratorInputs]
          | true =>
            cases hp : est.initialized (afterStereo est s datum b) with
            | false =>
              simp [feed_fusing_silent est s datum arrived elapsed cam queued b ht hq hb ha hp,
                poses, integratorInputs]
            | true =>
              rw [feed_fusing_publish est s datum arrived elapsed cam queued b ht hq hb ha hp]
              simp only [poses, integratorInputs, List.mem_singleton, forall_eq]
              exact ⟨⟨((pose_asserts_iff _).1 ha).2, ((pose_asserts_iff _).1 ha).1⟩,
                pos_finite_of_asserts _ ha, rot2_finite_of_asserts _ ha⟩

/-- A publishing tick around an initialized estimator at rest: one pose and
one integrator input, their positions and orientations finite. -/
theorem published_pose_finite_witness :
    (poses (feed_imu_cam scripted (holdingFirst (restState, true))
        ⟨some (sampleAt 1005000000), [pairAt 2], 5⟩).events).length = 1 ∧
      (integratorInputs (feed_imu_cam scripted (holdingFirst (restState, true))
        ⟨some (sampleAt 1005000000), [pairAt 2], 5⟩).events).length = 1 ∧
      (∀ p ∈ poses (feed_imu_cam scripted (holdingFirst (restState, true))
          ⟨some (sampleAt 1005000000), [pairAt 2], 5⟩).events,
        p.position.finite = true ∧ p.orientation.finite = true) ∧
      (∀ i ∈ integratorInputs (feed_imu_cam scripted (holdingFirst (restState, true))
          ⟨some (sampleAt 1005000000), [pairAt 2], 5⟩).events,
        i.position.finite = true ∧ i.quat.finite = true) :=
  ⟨by decide!, by decide!,
   published_pose_finite scripted (holdingFirst (restState, true))
     ⟨some (sampleAt 1005000000), [pairAt 2], 5⟩⟩

/-- C6, as stated, fails: a tick of 150 ms on which no camera pair is queued
ends without a fault and leaves the slow counter (and the fast counter) as it
was. -/
theorem slow_idle_tick_not_counted :
    (feed_imu_cam scripted (holdingFirst (restState, true))
        ⟨some (sampleAt 1005000000), [], 150000000⟩).fault = none ∧
      (holdingFirst (restState, true)).slow_count = 0 ∧
      (feed_imu_cam scripted (holdingFirst (restState, true))
        ⟨some (sampleAt 1005000000), [], 150000000⟩).plugin.slow_count = 0 ∧
      (feed_imu_cam scripted (holdingFirst (restState, true))
        ⟨some (sampleAt 1005000000), [], 150000000⟩).plugin.fast_count =
        (holdingFirst (restState, true)).fast_count := by
  decide!

/-- C6 (latency classification), amended: for every tick that ends without a
fault, from every state; if the tick fused a pair, then when the measured
duration exceeds 100 ms the slow counter is incremented once as a 64-bit
`size_t` (to `slow_count + 1` modulo `2 ^ 64`) and the fast counter is
unchanged, and otherwise (exactly 100 ms included) the fast counter is
incremented once in the same way and the slow counter is unchanged; if the
tick fused no pair (no pair queued, or the first pair only buffered), both
counters are unchanged. -/
theorem latency_classification {E : Type} (est : VioManager E) (s : slam2 E) (d : Delivery)
    (hf : (feed_imu_cam est s d).fault = none) :
    (stereoFeeds (feed_imu_cam est s d).events ≠ [] → 100000000 < d.elapsed →
        (feed_imu_cam est s d).plugin.slow_count = (s.slow_count + 1) % 2 ^ 64 ∧
        (feed_imu_cam est s d).plugin.fast_count = s.fast_count) ∧
      (stereoFeeds (feed_imu_cam est s d).events ≠ [] → d.elapsed ≤ 100000000 →
        (feed_imu_cam est s d).plugin.fast_count = (s.fast_count + 1) % 2 ^ 64 ∧
        (feed_imu_cam est s d).plugin.slow_count = s.slow_count) ∧
      (stereoFeeds (feed_imu_cam est s d).events = [] →
        (feed_imu_cam est s d).plugin.slow_count = s.slow_count ∧
        (feed_imu_cam est s d).plugin.fast_count = s.fast_count) := by
  obtain ⟨datum, arrived, elapsed⟩ := d
  cases datum with
  | none => simp [feed_null] at hf
  | some datum =>
    cases ht : FP.gt (timestamp_in_seconds datum) s.previous_timestamp with
    | false => simp [feed_rejected est s datum arrived elapsed ht] at hf
    | true =>
      cases hq : s._m_cam ++ arrived with
      | nil => simp [feed_idle est s datum arrived elapsed ht hq, stereoFeeds]
      | cons cam queued =>
        cases hb : s.cam_buffer with
        | none =>
          simp [feed_bootstrap est s datum arrived elapsed cam queued ht hq hb, stereoFeeds]
        | some b =>
          cases ha : pose_asserts (readBack est s datum b) with
          | false =>
            simp [feed_fusing_fault est s datum arrived elapsed cam queued b ht hq hb ha] at hf
          | true =>
            cases hp : est.initialized (afterStereo est s datum b) with
            | false =>
              rw [feed_fusing_silent est s datum arrived elapsed cam queued b ht hq hb ha hp]
              simp only [stereoFeeds, size_t_incr]
              refine ⟨fun _ h => ?_, fun _ h => ?_, fun h => ?_⟩
              · simp [h]
              · simp [Nat.not_lt.2 h]
              · simp at h
            | true =>
              rw [feed_fusing_publish est s datum arrived elapsed cam queued b ht hq hb ha hp]
              simp only [stereoFeeds, size_t_incr]
              refine ⟨fun _ h => ?_, fun _ h => ?_, fun h => ?_⟩
              · simp [h]
              · simp [Nat.not_lt.2 h]
              · simp at h

/-- Fusing ticks of 150 ms, of exactly 100 ms and of 10 ms, from counters at
zero: the first is counted slow, the other two fast. -/
theorem latency_classification_witness :
    ((feed_imu_cam scripted (holdingFirst (restState, true))
        ⟨some (sampleAt 1005000000), [pairAt 2], 150000000⟩).plugin.slow_count =
          ((holdingFirst (restState, true)).slow_count + 1) % 2 ^ 64 ∧
      (feed_imu_cam scripted (holdingFirst (restState, true))
        ⟨some (sampleAt 1005000000), [pairAt 2], 150000000⟩).plugin.fast_count =
          (holdingFirst (restState, true)).fast_count) ∧
    ((feed_imu_cam scripted (holdingFirst (restState, true))
        ⟨some (sampleAt 1005000000), [pairAt 2], 100000000⟩).plugin.fast_count =
          ((holdingFirst (restState, true)).fast_count + 1) % 2 ^ 64 ∧
      (feed_imu_cam scripted (holdingFirst (restState, true))
        ⟨some (sampleAt 1005000000), [pairAt 2], 100000000⟩).plugin.slow_count =
          (holdingFirst (restState, true)).slow_count) ∧
    ((feed_imu_cam scripted (holdingFirst (restState, true))
        ⟨some (sampleAt 1005000000), [pairAt 2], 10000000⟩).plugin.fast_count =
          ((holdingFirst (restState, true)).fast_count + 1) % 2 ^ 64 ∧
      (feed_imu_cam scripted (holdingFirst (restState, true))
        ⟨some (sampleAt 1005000000), [pairAt 2], 10000000⟩).plugin.slow_count =
          (holdingFirst (restState, true)).slow_count) ∧
    ((holdingFirst (restState, true)).slow_count + 1) % 2 ^ 64 = 1 ∧
    (holdingFirst (restState, true)).fast_count = 0 :=
  ⟨(latency_classification scripted (holdingFirst (restState, true))
      ⟨some (sampleAt 1005000000), [pairAt 2], 150000000⟩ (by decide!)).1
      (by decide!) (by decide!),
   (latency_classification scripted (holdingFirst (restState, true))
      ⟨some (sampleAt 1005000000), [pairAt 2], 100000000⟩ (by decide!)).2.1
      (by decide!) (by decide!),
   (latency_classification scripted (holdingFirst (restState, true))
      ⟨some (sampleAt 1005000000), [pairAt 2], 10000000⟩ (by decide!)).2.1
      (by decide!) (by decide!),
   by decide!, by decide!⟩

/-- C7 (empty-queue tick): from every state, a sample with a valid timestamp
delivered while no camera pair is queued is fed to the estimator exactly once
and is the tick's only effect (no dequeue, no stereo fusion, no publish), the
tick ends without a fault, and the buffered pair and the queue are as before. -/
theorem empty_queue_tick {E : Type} (est : VioManager E) (s : slam2 E) (datum : imu_type)
    (arrived : List cam_type) (elapsed : Nat)
    (ht : FP.gt (timestamp_in_seconds datum) s.previous_timestamp = true)
    (hq : s._m_cam ++ arrived = []) :
    (feed_imu_cam est s ⟨some datum, arrived, elapsed⟩).events =
        [Event.imu (timestamp_in_seconds datum) datum.angular_v datum.linear_a] ∧
      (feed_imu_cam est s ⟨some datum, arrived, elapsed⟩).fault = none ∧
      (feed_imu_cam est s ⟨some datum, arrived, elapsed⟩).plugin.open_vins_estimator =
        est.feed_measurement_imu s.open_vins_estimator (timestamp_in_seconds datum)
          datum.angular_v datum.linear_a ∧
      (feed_imu_cam est s ⟨some datum, arrived, elapsed⟩).plugin.cam_buffer = s.cam_buffer ∧
      (feed_imu_cam est s ⟨some datum, arrived, elapsed⟩).plugin._m_cam = s._m_cam := by
  rw [feed_idle est s datum arrived elapsed ht hq]
  simp

/-- An inertial-only tick of a frontend that holds the first pair: one inertial
feed, the held pair still held. -/
theorem empty_queue_tick_witness :
    (feed_imu_cam scripted (holdingFirst (restState, true))
        ⟨some (sampleAt 1005000000), [], 5⟩).events =
        [Event.imu (timestamp_in_seconds (sampleAt 1005000000)) (sampleAt 1005000000).angular_v
          (sampleAt 1005000000).linear_a] ∧
      (feed_imu_cam scripted (holdingFirst (restState, true))
        ⟨some (sampleAt 1005000000), [], 5⟩).plugin.cam_buffer = some (pairAt 1) :=
  have h := empty_queue_tick scripted (holdingFirst (restState, true)) (sampleAt 1005000000)
    [] 5 (by decide!) (by decide!)
  ⟨h.1, h.2.2.2.1.trans (by decide!)⟩

/-- C8 (quaternion reordering): on every fusing tick on which the estimator
is initialized, if the orientation read back from the estimator is stored as
(x, y, z, w), every pose the tick publishes has the orientation
(w, x, y, z), each coefficient converted to single precision, and every
integrator input has the orientation (w, x, y, z), the same four `double`
values; and when the seven assertions pass, the tick publishes exactly one of
each. -/
theorem quaternion_reordering {E : Type} (est : VioManager E) (s : slam2 E) (datum : imu_type)
    (arrived : List cam_type) (elapsed : Nat) (cam : cam_type) (queued : List cam_type)
    (b : cam_type) (x y z w : FP)
    (ht : FP.gt (timestamp_in_seconds datum) s.previous_timestamp = true)
    (hq : s._m_cam ++ arrived = cam :: queued) (hb : s.cam_buffer = some b)
    (hp : est.initialized (afterStereo est s datum b) = true)
    (hxyzw : (readBack est s datum b).quat = ⟨x, y, z, w⟩) :
    (∀ p ∈ poses (feed_imu_cam est s ⟨some datum, arrived, elapsed⟩).events,
        p.orientation = ⟨toFloat w, toFloat x, toFloat y, toFloat z⟩) ∧
      (∀ i ∈ integratorInputs (feed_imu_cam est s ⟨some datum, arrived, elapsed⟩).events,
        i.quat = ⟨w, x, y, z⟩) ∧
      (pose_asserts (readBack est s datum b) = true →
        (poses (feed_imu_cam est s ⟨some datum, arrived, elapsed⟩).events).length = 1 ∧
        (integratorInputs
          (feed_imu_cam est s ⟨some datum, arrived, elapsed⟩).events).length = 1) := by
  cases ha : pose_asserts (readBack est s datum b) with
  | false =>
    simp [feed_fusing_fault est s datum arrived elapsed cam queued b ht hq hb ha,
      poses, integratorInputs]
  | true =>
    rw [feed_fusing_publish est s datum arrived elapsed cam queued b ht hq hb ha hp]
    simp [poses, integratorInputs, swapped_rot, swapped_rot2, hxyzw]

/-- The orientation x = 0.1, y = 0.2, z = 0.3, w = 0.9327 is published as
(w, x, y, z): the nearest `float` values in the pose, the `double` values in the
integrator input. -/
theorem quaternion_reordering_witness :
    (∀ p ∈ poses (feed_imu_cam scripted (holdingFirst (tiltedState, true))
        ⟨some (sampleAt 1005000000), [pairAt 2], 5⟩).events,
        p.orientation = ⟨toFloat (binary64 (9327 / 10000)), toFloat (binary64 (1 / 10)),
          toFloat (binary64 (2 / 10)), toFloat (binary64 (3 / 10))⟩) ∧
      (∀ i ∈ integratorInputs (feed_imu_cam scripted (holdingFirst (tiltedState, true))
        ⟨some (sampleAt 1005000000), [pairAt 2], 5⟩).events,
        i.quat = ⟨binary64 (9327 / 10000), binary64 (1 / 10), binary64 (2 / 10),
          binary64 (3 / 10)⟩) ∧
      (poses (feed_imu_cam scripted (holdingFirst (tiltedState, true))
        ⟨some (sampleAt 1005000000), [pairAt 2], 5⟩).events).map (fun p => p.orientation) =
        [⟨.fin (15648109 / 16777216), .fin (13421773 / 134217728),
          .fin (13421773 / 67108864), .fin (5033165 / 16777216)⟩] ∧
      (integratorInputs (feed_imu_cam scripted (holdingFirst (tiltedState, true))
        ⟨some (sampleAt 1005000000), [pairAt 2], 5⟩).events).map (fun i => i.quat) =
        [⟨.fin (8401014744896923 / 9007199254740992),
          .fin (3602879701896397 / 36028797018963968),
          .fin (3602879701896397 / 18014398509481984),
          .fin (5404319552844595 / 18014398509481984)⟩] :=
  have h := quaternion_reordering scripted (holdingFirst (tiltedState, true))
    (sampleAt 1005000000) [pairAt 2] 5 (pairAt 2) [] (pairAt 1)
    (binary64 (1 / 10)) (binary64 (2 / 10)) (binary64 (3 / 10)) (binary64 (9327 / 10000))
    (by decide!) (by decide!) (by decide!) (by decide!) (by decide!)
  ⟨h.1, h.2.1, by decide!, by decide!⟩

/-- C9 (pose timestamp): on every fusing tick on which the estimator is
initialized, `b` being the pair buffered before the tick and `cam` the pair
the tick dequeues, every pose the tick publishes is stamped with `b.time`;
it is therefore stamped neither with `cam.time` nor with the datum's
timestamp where these differ from `b.time`; and when the tick ends without a
fault it publishes exactly one pose. -/
theorem pose_timestamp {E : Type} (est : VioManager E) (s : slam2 E) (datum : imu_type)
    (arrived : List cam_type) (elapsed : Nat) (cam : cam_type) (queued : List cam_type)
    (b : cam_type)
    (ht : FP.gt (timestamp_in_seconds datum) s.previous_timestamp = true)
    (hq : s._m_cam ++ arrived = cam :: queued) (hb : s.cam_buffer = some b)
    (hp : est.initialized (afterStereo est s datum b) = true) :
    (∀ p ∈ poses (feed_imu_cam est s ⟨some datum, arrived, elapsed⟩).events,
        p.sensor_time = b.time ∧
        (cam.time ≠ b.time → p.sensor_time ≠ cam.time) ∧
        (datum.dataset_time ≠ b.time → p.sensor_time ≠ datum.dataset_time)) ∧
      ((feed_imu_cam est s ⟨some datum, arrived, elapsed⟩).fault = none →
        (poses (feed_imu_cam est s ⟨some datum, arrived, elapsed⟩).events).map
          (fun p => p.sensor_time) = [b.time]) := by
  cases ha : pose_asserts (readBack est s datum b) with
  | false =>
    simp [feed_fusing_fault est s datum arrived elapsed cam queued b ht hq hb ha,
      poses, integratorInputs]
  | true =>
    rw [feed_fusing_publish est s datum arrived elapsed cam queued b ht hq hb ha hp]
    simp only [poses, List.mem_singleton, forall_eq, List.map, true_and, implies_true, and_true]
    exact ⟨fun h => fun h2 => h h2.symm, fun h => fun h2 => h h2.symm⟩

/-- A fusing tick that holds the pair of time 1000 and dequeues the pair of
time 2000 publishes a pose stamped 1000. -/
theorem pose_timestamp_witness :
    (pairAt 1).time = 1000 ∧ (pairAt 2).time = 2000 ∧
      (poses (feed_imu_cam scripted (holdingFirst (restState, true))
        ⟨some (sampleAt 1005000000), [pairAt 2], 5⟩).events).map
          (fun p => p.sensor_time) = [1000] :=
  ⟨by decide, by decide,
   (pose_timestamp scripted (holdingFirst (restState, true)) (sampleAt 1005000000)
      [pairAt 2] 5 (pairAt 2) [] (pairAt 1) (by decide!) (by decide!) (by decide!)
      (by decide!)).2 (by decide!)⟩

/-- C10 (first sample): the first sample delivered to a freshly constructed
frontend is fed to the estimator if and only if its timestamp in nanoseconds
is greater than zero; a first sample stamped 0 ns ends the tick in the
timestamp fault, with no effect at all: the estimator is not fed and is as
constructed, no pair is dequeued and the queue is as constructed. -/
theorem first_sample {E : Type} (est : VioManager E) (e : E) (now : Nat) (datum : imu_type)
    (arrived : List cam_type) (elapsed : Nat) :
    (imuFeeds (feed_imu_cam est (slam2.construct e now).2
          ⟨some datum, arrived, elapsed⟩).events = [timestamp_in_seconds datum] ↔
        0 < datum.dataset_time) ∧
      (datum.dataset_time = 0 →
        (feed_imu_cam est (slam2.construct e now).2 ⟨some datum, arrived, elapsed⟩).fault =
          some Fault.timestamp_order ∧
        (feed_imu_cam est (slam2.construct e now).2 ⟨some datum, arrived, elapsed⟩).events =
          [] ∧
        (feed_imu_cam est (slam2.construct e now).2
          ⟨some datum, arrived, elapsed⟩).plugin.open_vins_estimator = e ∧
        (feed_imu_cam est (slam2.construct e now).2
          ⟨some datum, arrived, elapsed⟩).plugin._m_cam = []) := by
  have hprev : (slam2.construct e now).2.previous_timestamp = .fin 0 := rfl
  cases ht : FP.gt (timestamp_in_seconds datum) (slam2.construct e now).2.previous_timestamp with
  | false =>
    have hz : ¬ 0 < datum.dataset_time := by
      intro h
      rw [hprev, (timestamp_pos_iff datum).2 h] at ht
      exact Bool.noConfusion ht
    rw [feed_rejected est _ datum arrived elapsed ht]
    simp [imuFeeds, hz, slam2.construct]
  | true =>
    have hpos : 0 < datum.dataset_time := by
      rw [hprev] at ht
      exact (timestamp_pos_iff datum).1 ht
    refine ⟨?_, fun h0 => absurd h0 (by omega)⟩
    simp [(tick_accepts est _ datum arrived elapsed ht).1, hpos]

/-- A first sample stamped 0 ns, a camera pair being queued: the timestamp
fault, no effect, the estimator and the queue as constructed; a first sample
stamped 1 ns is fed. -/
theorem first_sample_witness :
    ((feed_imu_cam scripted (slam2.construct (restState, true) 0).2
        ⟨some (sampleAt 0), [pairAt 1], 5⟩).fault = some Fault.timestamp_order ∧
      (feed_imu_cam scripted (slam2.construct (restState, true) 0).2
        ⟨some (sampleAt 0), [pairAt 1], 5⟩).events = [] ∧
      (feed_imu_cam scripted (slam2.construct (restState, true) 0).2
        ⟨some (sampleAt 0), [pairAt 1], 5⟩).plugin.open_vins_estimator = (restState, true) ∧
      (feed_imu_cam scripted (slam2.construct (restState, true) 0).2
        ⟨some (sampleAt 0), [pairAt 1], 5⟩).plugin._m_cam = []) ∧
    imuFeeds (feed_imu_cam scripted (slam2.construct (restState, true) 0).2
        ⟨some (sampleAt 1), [pairAt 1], 5⟩).events = [timestamp_in_seconds (sampleAt 1)] ∧
    timestamp_in_seconds (sampleAt 1) =
      .fin (4835703278458517 / 4835703278458516698824704) :=
  ⟨(first_sample scripted (restState, true) 0 (sampleAt 0) [pairAt 1] 5).2 rfl,
   (first_sample scripted (restState, true) 0 (sampleAt 1) [pairAt 1] 5).1.2 (by decide),
   by decide!⟩

end Slam2
